import Mathlib

/-!
Verification of the financial computation and reconciliation engine of the
Lettia automation repository.

The definitions below are a shallow embedding of the Python sources:
  - src/services/date_utils.py        (normalize_date)
  - src/services/tourist_tax.py       (calculate_tourist_tax)
  - src/services/reservation_merger.py (ReservationMerger.merge)
  - src/services/finance.py           (calculate_financials)
  - src/services/invoice_service.py   (_match_primary_guest, _calculate_tourist_tax)

Modelling conventions:
  - Python scalar values are modelled by the inductive type `PyVal`.
    Python ints and floats are carried as exact rationals (`Int` / `Rat`);
    float special values (nan, inf) and exponent literals are outside the
    model and are treated as parse failures.
  - Python dicts (records keyed by field name) are modelled as functions
    `String -> Option PyVal`; `none` means the key is absent.
  - Calendar dates are modelled as day numbers (days since 1970-01-01),
    converted from and to civil (year, month, day) triples by the standard
    era-based algorithms.
  - Functions that can raise are modelled in `Except Unit`; a tolerant
    variant that substitutes a default instead of raising is total.
  - `round(x, 2)` is modelled as rounding `100*x` to the nearest integer
    (ties differ from Python's bankers rounding only on exact half-cents,
    which no claim exercises).
-/

/-- Model of a Python scalar value: `None`, an int, a float (exact rational),
a string, or any other object (only its blank-ness / truthiness matters to
the embedded code). -/
inductive PyVal : Type
  | vnone : PyVal
  | vint : Int → PyVal
  | vfloat : Rat → PyVal
  | vstr : String → PyVal
  | vother : PyVal
deriving DecidableEq, Repr

namespace PyVal

/-- Python truthiness of a value, as used by `if value:` tests. -/
def truthy : PyVal → Bool
  | vnone => false
  | vint n => n ≠ 0
  | vfloat q => q ≠ 0
  | vstr s => s ≠ ""
  | vother => true

/-- Model of Python `str(value)`.  Only string inputs matter to the embedded
code (the result is compared against fixed lowercase words or parsed as a
date, which non-string renderings never satisfy). -/
def pyStr : PyVal → String
  | vnone => "None"
  | vint n => toString n
  | vfloat q => toString q
  | vstr s => s
  | vother => "object"

end PyVal

section Calendar

/-- Gregorian leap-year test. -/
def isLeap (y : Int) : Bool :=
  (y % 4 == 0 && y % 100 != 0) || y % 400 == 0

/-- Days in a given month of a given year. -/
def daysInMonth (y m : Int) : Int :=
  if m = 2 then (if isLeap y then 29 else 28)
  else if m = 4 ∨ m = 6 ∨ m = 9 ∨ m = 11 then 30
  else 31

/-- Validity of a civil date as `datetime.date` accepts it
(year 1..9999, month 1..12, day within the month). -/
def isValidDate (y m d : Int) : Bool :=
  1 ≤ y && y ≤ 9999 && 1 ≤ m && m ≤ 12 && 1 ≤ d && d ≤ daysInMonth y m

/-- Day number (days since 1970-01-01) of a civil date
(era-based days-from-civil algorithm). -/
def civilToDays (y m d : Int) : Int :=
  let yy := if m ≤ 2 then y - 1 else y
  let era := Int.fdiv yy 400
  let yoe := yy - era * 400
  let doy := Int.fdiv (153 * (if m > 2 then m - 3 else m + 9) + 2) 5 + d - 1
  let doe := yoe * 365 + Int.fdiv yoe 4 - Int.fdiv yoe 100 + doy
  era * 146097 + doe - 719468

/-- Civil date (year, month, day) of a day number
(era-based civil-from-days algorithm). -/
def civilFromDays (z0 : Int) : Int × Int × Int :=
  let z := z0 + 719468
  let era := Int.fdiv z 146097
  let doe := z - era * 146097
  let yoe := Int.fdiv (doe - Int.fdiv doe 1460 + Int.fdiv doe 36524 - Int.fdiv doe 146096) 365
  let y := yoe + era * 400
  let doy := doe - (365 * yoe + Int.fdiv yoe 4 - Int.fdiv yoe 100)
  let mp := Int.fdiv (5 * doy + 2) 153
  let d := doy - Int.fdiv (153 * mp + 2) 5 + 1
  let m := if mp < 10 then mp + 3 else mp - 9
  (if m ≤ 2 then y + 1 else y, m, d)

end Calendar

section StringHelpers

/-- Numeric value of a string of ASCII digits. -/
def natOfDigits (s : String) : Nat :=
  s.data.foldl (fun a c => a * 10 + (c.toNat - 48)) 0

/-- Whether a string is nonempty and consists solely of ASCII digits. -/
def allDigits (s : String) : Bool :=
  !s.data.isEmpty && s.data.all Char.isDigit

/-- Left-pad a string with zeros up to the given width. -/
def padZero (w : Nat) (s : String) : String :=
  if s.length ≥ w then s else String.mk (List.replicate (w - s.length) '0') ++ s

/-- Render a civil date as `YYYY-MM-DD` (model of `strftime('%Y-%m-%d')`
for years 1..9999). -/
def formatDate (y m d : Int) : String :=
  padZero 4 (toString y.toNat) ++ "-" ++ padZero 2 (toString m.toNat) ++ "-" ++ padZero 2 (toString d.toNat)

/-- Drop whitespace from both ends of a character list. -/
def trimChars (l : List Char) : List Char :=
  ((l.dropWhile Char.isWhitespace).reverse.dropWhile Char.isWhitespace).reverse

/-- Model of Python `str.strip()`. -/
def pyStrip (s : String) : String :=
  String.mk (trimChars s.data)

/-- Split a character list at every character satisfying `p`, keeping empty
pieces (the semantics of Python `str.split(sep)`). -/
def splitCharsBy (p : Char → Bool) : List Char → List Char → List (List Char)
  | [], acc => [acc.reverse]
  | c :: rest, acc =>
    if p c then acc.reverse :: splitCharsBy p rest []
    else splitCharsBy p rest (c :: acc)

/-- Split a string on a separator character into its pieces. -/
def splitSep (sep : Char) (s : String) : List String :=
  (splitCharsBy (· = sep) s.data []).map String.mk

/-- Model of Python `str.split()` with no argument: split on whitespace,
dropping empty pieces. -/
def pySplitWs (s : String) : List String :=
  ((splitCharsBy Char.isWhitespace s.data []).map String.mk).filter (fun t => !t.data.isEmpty)

end StringHelpers

section DateParsing

/-- Shared shape check for a `strptime`-style three-component date: each
component nonempty, all digits, year at most four digits, month and day at
most two digits, and the triple a valid calendar date. -/
def checkYMD (ys ms ds : String) : Option (Int × Int × Int) :=
  if allDigits ys && ys.length ≤ 4 && allDigits ms && ms.length ≤ 2
      && allDigits ds && ds.length ≤ 2 then
    let y : Int := natOfDigits ys
    let m : Int := natOfDigits ms
    let d : Int := natOfDigits ds
    if isValidDate y m d then some (y, m, d) else none
  else none

/-- Model of `datetime.strptime(s, '%Y<sep>%m<sep>%d')`. -/
def parseYMD (sep : Char) (s : String) : Option (Int × Int × Int) :=
  match splitSep sep s with
  | [ys, ms, ds] => checkYMD ys ms ds
  | _ => none

/-- Model of `datetime.strptime(s, '%m/%d/%Y')`. -/
def parseMDY (s : String) : Option (Int × Int × Int) :=
  match splitSep '/' s with
  | [ms, ds, ys] => checkYMD ys ms ds
  | _ => none

/-- Model of `datetime.strptime(s, '%d/%m/%Y')`. -/
def parseDMY (s : String) : Option (Int × Int × Int) :=
  match splitSep '/' s with
  | [ds, ms, ys] => checkYMD ys ms ds
  | _ => none

end DateParsing

section DateUtils

/-- Python `int(value)` truncation toward zero on an exact rational. -/
def ratTrunc (q : Rat) : Int :=
  Int.tdiv q.num q.den

/-- Day number of the spreadsheet epoch 1899-12-30. -/
def sheetsEpoch : Int := civilToDays 1899 12 30

/-- Serial-number branch of `normalize_date`: `datetime(1899,12,30) +
timedelta(days=int(value))`, formatted `%Y-%m-%d`; out-of-range dates raise
(modelled as an error). -/
def serialToString (n : Int) : Except Unit String :=
  let day := sheetsEpoch + n
  match civilFromDays day with
  | (y, m, d) => if 1 ≤ y ∧ y ≤ 9999 then Except.ok (formatDate y m d) else Except.error ()

/-- Embedding of `date_utils.normalize_date`: numeric inputs are spreadsheet
serial dates; string inputs are tried as `%Y-%m-%d`, `%Y/%m/%d`, `%m/%d/%Y`,
`%d/%m/%Y` in that order; everything else raises `ValueError` (modelled as
`Except.error`). -/
def normalize_date : PyVal → Except Unit String
  | PyVal.vnone => Except.error ()
  | PyVal.vint n => serialToString n
  | PyVal.vfloat q => serialToString (ratTrunc q)
  | PyVal.vother => Except.error ()
  | PyVal.vstr s =>
    let t := pyStrip s
    if t = "" then Except.error ()
    else
      match parseYMD '-' t with
      | some (y, m, d) => Except.ok (formatDate y m d)
      | none =>
        match parseYMD '/' t with
        | some (y, m, d) => Except.ok (formatDate y m d)
        | none =>
          match parseMDY t with
          | some (y, m, d) => Except.ok (formatDate y m d)
          | none =>
            match parseDMY t with
            | some (y, m, d) => Except.ok (formatDate y m d)
            | none => Except.error ()

/-- Embedding of `date_utils.normalize_date_safe`: empty string on error. -/
def normalize_date_safe (v : PyVal) : String :=
  match normalize_date v with
  | Except.ok s => s
  | Except.error _ => ""

end DateUtils

namespace ReservationMerger

/-- `ReservationMerger.FINANCIAL_FIELDS` from reservation_merger.py. -/
def FINANCIAL_FIELDS : List String :=
  ["airbnb_fee", "lodgify_fee", "stripe_fee", "dynamic_fee", "total_fees",
   "vat_amount", "net_revenue", "payout_expected", "price_per_night",
   "price_per_guest_per_night"]

/-- `ReservationMerger.ALWAYS_OVERWRITE_FIELDS` from reservation_merger.py. -/
def ALWAYS_OVERWRITE_FIELDS : List String :=
  ["country", "payout_expected"]

/-- Embedding of `ReservationMerger._is_empty`: None, whitespace-only string,
or numeric zero count as empty. -/
def is_empty : PyVal → Bool
  | PyVal.vnone => true
  | PyVal.vstr s => pyStrip s = ""
  | PyVal.vint n => n = 0
  | PyVal.vfloat q => q = 0
  | PyVal.vother => false

/-- The test `isinstance(new_value, str) and new_value.strip() == ""` used in
the financial-field branch of `merge`. -/
def isBlankStr : PyVal → Bool
  | PyVal.vstr s => pyStrip s = ""
  | _ => false

/-- The fallback of the financial-field branch:
`existing.get(key, 0.0) if existing.get(key) is not None else 0.0`. -/
def keepExisting : PyVal → PyVal
  | PyVal.vnone => PyVal.vfloat 0
  | v => v

/-- Financial-field branch of `merge`: the incoming value wins when it is
neither None nor a blank string, otherwise the existing value (0.0 when
absent or None) is kept. -/
def financialRule (ev nv : PyVal) : PyVal :=
  if nv ≠ PyVal.vnone ∧ isBlankStr nv = false then nv else keepExisting ev

/-- Always-overwrite branch of `merge`: the incoming value wins
unconditionally, with None replaced by the empty string. -/
def alwaysOverwriteRule (nv : PyVal) : PyVal :=
  if nv = PyVal.vnone then PyVal.vstr "" else nv

/-- Default branch of `merge` (the three-way empty/non-empty policy),
with the branch order of the source. -/
def otherRule (ev nv : PyVal) : PyVal :=
  if is_empty ev = true ∧ is_empty nv = false then nv
  else if is_empty ev = false ∧ is_empty nv = true then ev
  else if is_empty ev = false ∧ is_empty nv = false then nv
  else if nv ≠ PyVal.vnone then nv else ev

/-- Per-key value of the merged record, for a key present in at least one
input (`eo`, `no` are the lookups `existing.get(key)`, `new.get(key)`). -/
def mergeField (k : String) (eo no : Option PyVal) : PyVal :=
  if k ∈ FINANCIAL_FIELDS then financialRule (eo.getD PyVal.vnone) (no.getD PyVal.vnone)
  else if k ∈ ALWAYS_OVERWRITE_FIELDS then alwaysOverwriteRule (no.getD PyVal.vnone)
  else otherRule (eo.getD PyVal.vnone) (no.getD PyVal.vnone)

/-- Embedding of `ReservationMerger.merge`: the merged record is defined on
the union of both key sets, pointwise by `mergeField`. -/
def merge (e n : String → Option PyVal) : String → Option PyVal := fun k =>
  if e k = none ∧ n k = none then none else some (mergeField k (e k) (n k))

end ReservationMerger

section TouristTax

/-- Per-night age of tourist_tax.py: `floor(days_old / 365.25)`.  Since
`365.25 = 1461/4` and both operands are exact in double precision for any
realistic day count, the float division of the source floors to the same
integer as this exact rational computation. -/
def ageAt (nightDay dobDay : Int) : Int :=
  Int.fdiv (4 * (nightDay - dobDay)) 1461

/-- The night-counting loop of `calculate_tourist_tax`: the number of nights
of the stay on which the guest is at least 16 by the per-night age rule. -/
def chargeableNights (checkInDay dobDay : Int) (totalNights : Nat) : Nat :=
  (List.range totalNights).countP (fun i => decide (16 ≤ ageAt (checkInDay + (i : Int)) dobDay))

/-- `datetime.strptime(normalized, '%Y-%m-%d').date()` as a day number. -/
def parseNormalized (s : String) : Except Unit Int :=
  match parseYMD '-' s with
  | some (y, m, d) => Except.ok (civilToDays y m d)
  | none => Except.error ()

/-- The date-independent core of `calculate_tourist_tax` after all six date
conversions: zero for an empty or inverted stay or a future date of birth
(`today` models `datetime.now().date()`), otherwise 2 EUR per chargeable
night, capped at 7 nights. -/
def taxCore (today ciD coD dobD : Int) : Int :=
  if coD ≤ ciD then 0
  else if today < dobD then 0
  else
    let totalNights := (coD - ciD).toNat
    if totalNights = 0 then 0
    else (min (chargeableNights ciD dobD totalNights) 7) * 2

/-- Embedding of `tourist_tax.calculate_tourist_tax`: normalize the three
inputs, parse them back, then apply `taxCore`.  `ValueError` from either
stage propagates (modelled as `Except.error`). -/
def calculate_tourist_tax (today : Int) (check_in check_out dob : PyVal) : Except Unit Int := do
  let nci ← normalize_date check_in
  let nco ← normalize_date check_out
  let ndob ← normalize_date dob
  let ciD ← parseNormalized nci
  let coD ← parseNormalized nco
  let dobD ← parseNormalized ndob
  pure (taxCore today ciD coD dobD)

end TouristTax

section Finance

/-- The financial fields returned by `calculate_financials`.
`anticipation_days` is `none` when the source stores the empty string. -/
structure Financials where
  airbnb_fee : Rat
  lodgify_fee : Rat
  stripe_fee : Rat
  dynamic_fee : Rat
  total_fees : Rat
  vat_amount : Rat
  net_revenue : Rat
  payout_expected : Rat
  anticipation_days : Option Int
  price_per_night : Rat
  price_per_guest_per_night : Rat
deriving DecidableEq, Repr

/-- Model of Python `round(x, 2)`: round `100*x` to the nearest integer
(ties vary from bankers rounding only at exact half-cents, which no claim
exercises). -/
def round2 (q : Rat) : Rat :=
  ((⌊q * 100 + 1 / 2⌋ : Int) : Rat) / 100

/-- Numeric value of a list of ASCII digits. -/
def natOfDigitsL (l : List Char) : Nat :=
  l.foldl (fun a c => a * 10 + (c.toNat - 48)) 0

/-- Unsigned decimal literal accepted by Python `float`: digits with at most
one decimal point and at least one digit overall. -/
def parseUnsignedDecimal (l : List Char) : Option Rat :=
  match splitCharsBy (· = '.') l [] with
  | [a] =>
    if !a.isEmpty && a.all Char.isDigit then some (natOfDigitsL a) else none
  | [a, b] =>
    if (!a.isEmpty || !b.isEmpty) && a.all Char.isDigit && b.all Char.isDigit then
      some ((natOfDigitsL a : Rat) + (natOfDigitsL b : Rat) / ((10 : Rat) ^ b.length))
    else none
  | _ => none

/-- Model of Python `float` on a string: strip, optional sign, decimal
literal.  Exponent notation, underscores, `inf` and `nan` are outside the
model and treated as failures. -/
def pyFloatOfString (s : String) : Option Rat :=
  match trimChars s.data with
  | '+' :: rest => parseUnsignedDecimal rest
  | '-' :: rest => (parseUnsignedDecimal rest).map (fun q => -q)
  | t => parseUnsignedDecimal t

/-- Model of the raising conversion `float(value)` used on `total_price`,
`nights`, `guests_count` and the three config rates. -/
def pyFloatStrict : PyVal → Except Unit Rat
  | PyVal.vnone => Except.error ()
  | PyVal.vint n => Except.ok n
  | PyVal.vfloat q => Except.ok q
  | PyVal.vother => Except.error ()
  | PyVal.vstr s =>
    match pyFloatOfString s with
    | some q => Except.ok q
    | none => Except.error ()

/-- Replace every comma by a dot (`value.replace(",", ".")`). -/
def commaToDot (s : String) : String :=
  String.mk (s.data.map (fun c => if c = ',' then '.' else c))

/-- Lowercase a string (model of `str.lower()` for ASCII content). -/
def toLowerStr (s : String) : String :=
  String.mk (s.data.map Char.toLower)

/-- Embedding of the inner `_to_float` helper of `calculate_financials`:
tolerant conversion that yields 0.0 instead of raising. -/
def to_float : PyVal → Rat
  | PyVal.vnone => 0
  | PyVal.vint n => n
  | PyVal.vfloat q => q
  | PyVal.vother => 0
  | PyVal.vstr s =>
    let t := pyStrip s
    if t = "" ∨ t = "None" ∨ t = "nan" ∨ t = "null" then 0
    else
      match pyFloatOfString (commaToDot t) with
      | some q => q
      | none => 0

/-- Outcome of handling one date value inside the `anticipation_days` block:
an `IndexError` that escapes the inner `except`, a `ValueError` that the
inner `except` catches (aborting the block), or a parsed-or-absent date. -/
inductive TokRes : Type
  | err : TokRes
  | abortCaught : TokRes
  | val : Option Int → TokRes

/-- One date value of the `anticipation_days` block: strings are
whitespace-split (an empty split raises `IndexError`) and their first token
parsed as `%Y-%m-%d` (failure raises `ValueError`, caught by the inner
`except`); non-string, non-datetime values give `None`. -/
def parseResvToken : PyVal → TokRes
  | PyVal.vstr s =>
    match pySplitWs s with
    | [] => TokRes.err
    | t :: _ =>
      match parseYMD '-' t with
      | some (y, m, d) => TokRes.val (some (civilToDays y m d))
      | none => TokRes.abortCaught
  | _ => TokRes.val none

/-- The `anticipation_days` block of `calculate_financials`: `Except.error`
is an exception escaping to the outer handler, `Except.ok none` the
empty-string result. -/
def anticipationOf (rd ci : PyVal) : Except Unit (Option Int) :=
  if rd.truthy && ci.truthy then
    match parseResvToken rd with
    | TokRes.err => Except.error ()
    | TokRes.abortCaught => Except.ok none
    | TokRes.val rdd =>
      match parseResvToken ci with
      | TokRes.err => Except.error ()
      | TokRes.abortCaught => Except.ok none
      | TokRes.val cid =>
        match rdd, cid with
        | some a, some b => Except.ok (some (max 0 (b - a)))
        | _, _ => Except.ok none
  else Except.ok none

/-- `dict.get(key, default)`. -/
def getField (r : String → Option PyVal) (k : String) (dflt : PyVal) : PyVal :=
  (r k).getD dflt

/-- The values produced by the raising steps of `calculate_financials`
(the `float(...)` coercions, then the `anticipation_days` block), in source
order. -/
structure CoercedIn where
  tp : Rat
  nights : Rat
  guests : Rat
  vatRate : Rat
  abfPct : Rat
  lgfPct : Rat
  ant : Option Int
deriving DecidableEq, Repr

/-- The raising steps of the `try` block of `calculate_financials`, in
source order; the first to raise aborts the block.  (The interleaved
non-raising steps commute past these and live in `financialsOf`.) -/
def coerceInputs (r c : String → Option PyVal) : Except Unit CoercedIn :=
  match pyFloatStrict (getField r "total_price" (PyVal.vfloat 0)) with
  | Except.error e => Except.error e
  | Except.ok tp =>
    match pyFloatStrict (getField r "nights" (PyVal.vfloat 0)) with
    | Except.error e => Except.error e
    | Except.ok nights =>
      match pyFloatStrict (getField r "guests_count" (PyVal.vfloat 1)) with
      | Except.error e => Except.error e
      | Except.ok guests =>
        match pyFloatStrict (getField c "VAT_RATE" (PyVal.vfloat 0)) with
        | Except.error e => Except.error e
        | Except.ok vatRate =>
          match pyFloatStrict (getField c "AIRBNB_FEE_PERCENT" (PyVal.vfloat 0)) with
          | Except.error e => Except.error e
          | Except.ok abfPct =>
            match pyFloatStrict (getField c "LODGIFY_FEE_PERCENT" (PyVal.vfloat 0)) with
            | Except.error e => Except.error e
            | Except.ok lgfPct =>
              match anticipationOf (getField r "reservation_date" (PyVal.vstr ""))
                  (getField r "check_in" (PyVal.vstr "")) with
              | Except.error e => Except.error e
              | Except.ok ant =>
                Except.ok (CoercedIn.mk tp nights guests vatRate abfPct lgfPct ant)

/-- The non-raising computation of `calculate_financials` over the coerced
inputs: the fee, VAT, revenue, payout and per-night fields. -/
def financialsOf (r : String → Option PyVal) (i : CoercedIn) : Financials :=
  let origin := pyStrip (toLowerStr (PyVal.pyStr (getField r "origin" (PyVal.vstr ""))))
  let airbnbFee := if origin = "airbnb" then round2 (i.tp * i.abfPct) else 0
  let lodgifyFee := to_float (getField r "lodgify_fee" (PyVal.vfloat 0))
  let stripeFee := to_float (getField r "stripe_fee" (PyVal.vfloat 0))
  let dynamicFee := to_float (getField r "dynamic_fee" (PyVal.vfloat 0))
  let vatAmount := round2 (i.tp * i.vatRate)
  let totalFeesRaw := airbnbFee + lodgifyFee + stripeFee + dynamicFee
  let ppn := if i.nights > 0 then round2 (i.tp / i.nights) else 0
  let ppgn := if i.nights > 0 ∧ i.guests > 0 then round2 (i.tp / (i.nights * i.guests)) else 0
  Financials.mk airbnbFee lodgifyFee stripeFee dynamicFee (round2 totalFeesRaw)
    vatAmount (round2 (i.tp - totalFeesRaw - vatAmount))
    (round2 (i.tp - airbnbFee - lodgifyFee - stripeFee)) i.ant ppn ppgn

/-- The body of the `try` block of `finance.calculate_financials`:
`Except.error` models an exception reaching the outer handler. -/
def calcCore (r c : String → Option PyVal) : Except Unit Financials :=
  match coerceInputs r c with
  | Except.error e => Except.error e
  | Except.ok i => Except.ok (financialsOf r i)

/-- The fixed fallback breakdown returned on any exception
(finance.py lines 183-195): every fee, VAT, revenue, payout and per-night
field 0.0 and `anticipation_days` the empty string. -/
def zeroBreakdown : Financials :=
  Financials.mk 0 0 0 0 0 0 0 0 none 0 0

/-- Embedding of `finance.calculate_financials`: the computed breakdown, or
`zeroBreakdown` when the computation raises. -/
def calculate_financials (r c : String → Option PyVal) : Financials :=
  match calcCore r c with
  | Except.ok f => f
  | Except.error _ => zeroBreakdown

end Finance

namespace InvoiceService

/-- One SEF (guest registration) form, restricted to the sheet columns read
by the embedded code.  `dob` is carried to show it is never consulted. -/
structure SefForm where
  fullName : String
  checkIn : PyVal
  checkOut : PyVal
  dob : PyVal
deriving DecidableEq, Repr

/-- One reservation, restricted to the fields read by the matching and
invoice tourist-tax code.  `nights` is the already-coerced
`float(reservation.get("nights", 0.0))`. -/
structure Resv where
  guestName : PyVal
  checkIn : PyVal
  checkOut : PyVal
  nights : Rat
deriving DecidableEq, Repr

/-- Embedding of `InvoiceService._fuzzy_match_score`, parameterized by the
`difflib.SequenceMatcher(...).ratio()` similarity function. -/
def fuzzy_match_score (ratio : String → String → Rat) (name1 name2 : String) : Rat :=
  if name1 = "" ∨ name2 = "" then 0
  else
    let a := pyStrip (toLowerStr name1)
    let b := pyStrip (toLowerStr name2)
    if a = "" ∨ b = "" then 0 else ratio a b

/-- The date filter of `_match_primary_guest`: forms whose parsed check-in
and check-out dates are both present and equal to the reservation's. -/
def dateMatches (sefParse : PyVal → Option Int) (ci co : Int) (forms : List SefForm) : List SefForm :=
  forms.filter (fun s =>
    match sefParse s.checkIn, sefParse s.checkOut with
    | some a, some b => decide (a = ci ∧ b = co)
    | _, _ => false)

/-- The best-score loop of `_match_primary_guest`: running best match and
best score, updated on strict improvement. -/
def bestLoop (score : SefForm → Rat) : List SefForm → Option SefForm → Rat → Option SefForm × Rat
  | [], bm, bs => (bm, bs)
  | s :: rest, bm, bs =>
    if score s > bs then bestLoop score rest (some s) (score s)
    else bestLoop score rest bm bs

/-- The per-candidate similarity used by `_match_primary_guest`:
`_fuzzy_match_score(reservation guest name stripped, form full name
stripped)`. -/
def guestScore (ratio : String → String → Rat) (r : Resv) (s : SefForm) : Rat :=
  fuzzy_match_score ratio (pyStrip (PyVal.pyStr r.guestName)) (pyStrip s.fullName)

/-- Embedding of `InvoiceService._match_primary_guest`, parameterized by the
similarity ratio and the two date parsers (`_parse_reservation_date` and
`parse_sef_date`). -/
def match_primary_guest (ratio : String → String → Rat)
    (resParse sefParse : PyVal → Option Int) (r : Resv) (forms : List SefForm) : Option SefForm :=
  match resParse r.checkIn, resParse r.checkOut with
  | some ci, some co =>
    match dateMatches sefParse ci co forms with
    | [] => forms.head?
    | m :: ms =>
      let best := bestLoop (guestScore ratio r) (m :: ms) none 0
      if best.2 > 65 / 100 then best.1 else some m
  | _, _ => none

/-- The matcher ladder as the specification words it: among the candidates
whose parsed dates both equal the booking's, the one with the highest
similarity score if that score exceeds 0.65, else the first date-matching
candidate; with no date match, the first candidate of the whole list; none
only for an empty list. -/
def ladderSpec (ratio : String → String → Rat)
    (resParse sefParse : PyVal → Option Int) (r : Resv) (forms : List SefForm) : Option SefForm :=
  match resParse r.checkIn, resParse r.checkOut with
  | some ci, some co =>
    match dateMatches sefParse ci co forms with
    | [] => forms.head?
    | m :: ms =>
      match (m :: ms).find? (fun s => (m :: ms).all
          (fun t => decide (guestScore ratio r t ≤ guestScore ratio r s))) with
      | some s => if guestScore ratio r s > 65 / 100 then some s else some m
      | none => some m
  | _, _ => none

/-- The tourist-tax policy cutoff `date(2025, 1, 1)` as a day number. -/
def cutoffDay : Int := civilToDays 2025 1 1

/-- The forms counted as taxed adults by `_calculate_tourist_tax`: those
matching the reservation's parsed dates exactly, or all forms when none
match. -/
def effectiveForms (resParse sefParse : PyVal → Option Int) (ci : Int)
    (r : Resv) (forms : List SefForm) : List SefForm :=
  let co? := resParse r.checkOut
  let matching := forms.filter (fun s =>
    match sefParse s.checkIn, sefParse s.checkOut, co? with
    | some a, some b, some co => decide (a = ci ∧ b = co)
    | _, _, _ => false)
  if matching.isEmpty then forms else matching

/-- Embedding of `InvoiceService._calculate_tourist_tax`: zero for
non-positive nights or a check-in missing or before the cutoff; otherwise
2 EUR per night per matched form (falling back to all forms when none match
by date), with no age rule and no per-guest night cap. -/
def calcTouristTaxInvoice (resParse sefParse : PyVal → Option Int)
    (r : Resv) (forms : List SefForm) : Rat × Nat :=
  if r.nights ≤ 0 then (0, 0)
  else
    match resParse r.checkIn with
    | none => (0, 0)
    | some ci =>
      if ci < cutoffDay then (0, 0)
      else
        let numAdults := (effectiveForms resParse sefParse ci r forms).length
        if numAdults = 0 then (0, 0)
        else (round2 ((numAdults : Rat) * r.nights * 2), numAdults)

/-- The `%Y-%m-%d` branch shared by `_parse_reservation_date` and
`parse_sef_date`; on plain ISO date strings both source parsers return
exactly this.  It instantiates the parser parameters at concrete inputs. -/
def parseIsoDate : PyVal → Option Int
  | PyVal.vstr s =>
    if pyStrip s = "" then none
    else
      match parseYMD '-' (pyStrip s) with
      | some (y, m, d) => some (civilToDays y m d)
      | none => none
  | _ => none

end InvoiceService

example : normalize_date (PyVal.vint 45212) = Except.ok "2023-10-13" := rfl
example : normalize_date (PyVal.vstr "2025/12/08") = Except.ok "2025-12-08" := rfl
example : normalize_date (PyVal.vstr "15/12/2025") = Except.ok "2025-12-15" := rfl
example : normalize_date (PyVal.vstr "12/08/2025") = Except.ok "2025-12-08" := rfl
example : normalize_date (PyVal.vstr "45212") = Except.error () := rfl

namespace ReservationMerger

theorem keepExisting_ne_vnone (v : PyVal) : keepExisting v ≠ PyVal.vnone := by
  cases v <;> simp [keepExisting]

theorem keepExisting_keepExisting (v : PyVal) : keepExisting (keepExisting v) = keepExisting v := by
  cases v <;> simp [keepExisting]

theorem financialRule_idem (ev nv : PyVal) :
    financialRule (financialRule ev nv) nv = financialRule ev nv := by
  unfold financialRule
  by_cases h : nv ≠ PyVal.vnone ∧ isBlankStr nv = false
  · simp [h]
  · simp only [if_neg h]
    exact keepExisting_keepExisting ev

theorem otherRule_idem (ev nv : PyVal) : otherRule (otherRule ev nv) nv = otherRule ev nv := by
  by_cases hev : is_empty ev = true <;> by_cases hnv : is_empty nv = true
  · by_cases hn0 : nv = PyVal.vnone
    · subst hn0
      simp [otherRule, hev, is_empty]
    · simp [otherRule, hev, hnv, hn0]
  · simp [otherRule, hev, hnv]
  · simp [otherRule, hev, hnv]
  · simp [otherRule, hev, hnv]

theorem mergeField_idem (k : String) (eo no : Option PyVal) :
    mergeField k (some (mergeField k eo no)) no = mergeField k eo no := by
  unfold mergeField
  by_cases hf : k ∈ FINANCIAL_FIELDS
  · simp only [if_pos hf, Option.getD_some]
    exact financialRule_idem _ _
  · by_cases ha : k ∈ ALWAYS_OVERWRITE_FIELDS
    · simp [if_neg hf, if_pos ha]
    · simp only [if_neg hf, if_neg ha, Option.getD_some]
      exact otherRule_idem _ _

end ReservationMerger

/-- C1: for every pair of records, `ReservationMerger.merge` is idempotent in
its second argument: merging the incoming record a second time into the
already-merged record changes nothing. -/
theorem claim_C1_merge_idempotent (e n : String → Option PyVal) :
    ReservationMerger.merge (ReservationMerger.merge e n) n = ReservationMerger.merge e n := by
  funext k
  by_cases h : e k = none ∧ n k = none
  · have h0 : ReservationMerger.merge e n k = none := by
      simp [ReservationMerger.merge, h]
    show (if ReservationMerger.merge e n k = none ∧ n k = none then none
        else some (ReservationMerger.mergeField k (ReservationMerger.merge e n k) (n k)))
      = ReservationMerger.merge e n k
    rw [if_pos ⟨h0, h.2⟩, h0]
  · have h1 : ReservationMerger.merge e n k
        = some (ReservationMerger.mergeField k (e k) (n k)) := by
      simp [ReservationMerger.merge, h]
    have h2 : ¬(ReservationMerger.merge e n k = none ∧ n k = none) := by
      simp [h1]
    show (if ReservationMerger.merge e n k = none ∧ n k = none then none
        else some (ReservationMerger.mergeField k (ReservationMerger.merge e n k) (n k)))
      = ReservationMerger.merge e n k
    rw [if_neg h2, h1, ReservationMerger.mergeField_idem]

/-- C10: the key set of the merged record is exactly the union of the two
input key sets: a key is present in the merge result if and only if it is
present in the existing or the incoming record. -/
theorem claim_C10_merge_key_union (e n : String → Option PyVal) (k : String) :
    ReservationMerger.merge e n k ≠ none ↔ (e k ≠ none ∨ n k ≠ none) := by
  by_cases h : e k = none ∧ n k = none
  · simp [ReservationMerger.merge, h, h.1, h.2]
  · have h1 : ReservationMerger.merge e n k
        = some (ReservationMerger.mergeField k (e k) (n k)) := by
      simp [ReservationMerger.merge, h]
    simp only [h1]
    constructor
    · intro _
      by_contra hc
      push_neg at hc
      exact h ⟨hc.1, hc.2⟩
    · intro _
      simp

/-- Existing record of the C2 counterexample: an expected payout of 100.0. -/
def exRecC2 : String → Option PyVal :=
  fun k => if k = "payout_expected" then some (PyVal.vfloat 100) else none

/-- Incoming record of the C2 counterexample: a blank expected payout. -/
def newRecC2 : String → Option PyVal :=
  fun k => if k = "payout_expected" then some (PyVal.vstr "") else none

/-- C2 counterexample: `payout_expected` is listed in the always-overwrite
set, yet merging a blank incoming value over an existing 100.0 keeps the
existing 100.0 instead of putting in the incoming blank — the
financial-field branch of `merge` pre-empts the always-overwrite branch. -/
theorem claim_C2_counterexample :
    "payout_expected" ∈ ReservationMerger.ALWAYS_OVERWRITE_FIELDS ∧
    ReservationMerger.merge exRecC2 newRecC2 "payout_expected" = some (PyVal.vfloat 100) ∧
    PyVal.vfloat 100 ≠ PyVal.vstr "" := by decide

/-- C2 amended: of the always-overwrite set, only `country` is overwritten
unconditionally with the incoming value (None becoming the empty string);
`payout_expected`, being also a financial field and the financial branch
being checked first, instead follows the financial rule: the incoming value
wins only when it is neither None nor a blank string, otherwise the existing
value (0.0 when absent or None) is kept. -/
theorem claim_C2_always_overwrite_amended (e n : String → Option PyVal) :
    (¬(e "country" = none ∧ n "country" = none) →
      ReservationMerger.merge e n "country"
        = some (ReservationMerger.alwaysOverwriteRule ((n "country").getD PyVal.vnone))) ∧
    (¬(e "payout_expected" = none ∧ n "payout_expected" = none) →
      ReservationMerger.merge e n "payout_expected"
        = some (ReservationMerger.financialRule ((e "payout_expected").getD PyVal.vnone)
            ((n "payout_expected").getD PyVal.vnone))) := by
  constructor
  · intro h
    show (if e "country" = none ∧ n "country" = none then none
        else some (ReservationMerger.mergeField "country" (e "country") (n "country"))) = _
    rw [if_neg h]
    unfold ReservationMerger.mergeField
    rw [if_neg (by decide : ¬("country" ∈ ReservationMerger.FINANCIAL_FIELDS)),
      if_pos (by decide : "country" ∈ ReservationMerger.ALWAYS_OVERWRITE_FIELDS)]
  · intro h
    show (if e "payout_expected" = none ∧ n "payout_expected" = none then none
        else some (ReservationMerger.mergeField "payout_expected" (e "payout_expected") (n "payout_expected"))) = _
    rw [if_neg h]
    unfold ReservationMerger.mergeField
    rw [if_pos (by decide : "payout_expected" ∈ ReservationMerger.FINANCIAL_FIELDS)]

/-- Existing record of the C2 witness: a country and a payout. -/
def exRecC2w : String → Option PyVal :=
  fun k => if k = "country" then some (PyVal.vstr "PT")
    else if k = "payout_expected" then some (PyVal.vfloat 50) else none

/-- Incoming record of the C2 witness: a blank country and a None payout. -/
def newRecC2w : String → Option PyVal :=
  fun k => if k = "country" then some (PyVal.vstr "")
    else if k = "payout_expected" then some PyVal.vnone else none

theorem claim_C2_always_overwrite_amended_witness :
    ReservationMerger.merge exRecC2w newRecC2w "country"
      = some (ReservationMerger.alwaysOverwriteRule ((newRecC2w "country").getD PyVal.vnone)) ∧
    ReservationMerger.merge exRecC2w newRecC2w "payout_expected"
      = some (ReservationMerger.financialRule ((exRecC2w "payout_expected").getD PyVal.vnone)
          ((newRecC2w "payout_expected").getD PyVal.vnone)) :=
  ⟨(claim_C2_always_overwrite_amended exRecC2w newRecC2w).1 (by decide),
   (claim_C2_always_overwrite_amended exRecC2w newRecC2w).2 (by decide)⟩

/-- C8: numeric inputs are interpreted as spreadsheet serial dates counted
from 1899-12-30 — 45212 gives 2023-10-13 (a date in October 2023) and the
int and float forms agree — but the numeric string "45212" is NOT: the
string path only tries the four structured date formats and raises
`ValueError`, contradicting the function's own docstring example
`normalize_date("45212")`. -/
theorem claim_C8_serial_dates :
    normalize_date (PyVal.vint 45212) = Except.ok "2023-10-13" ∧
    normalize_date (PyVal.vfloat 45212) = normalize_date (PyVal.vint 45212) ∧
    normalize_date (PyVal.vstr "45212") = Except.error () :=
  ⟨rfl, rfl, rfl⟩

/-- C9: a guest born 2009-06-03 staying 2025-06-01 to 2025-06-05 pays
exactly 4 EUR: of the 4 nights only 2 reach the per-night age of 16 by the
`floor(days / 365.25)` rule, at 2 EUR per chargeable night. -/
theorem claim_C9_turning_sixteen (today : Int) (h : civilToDays 2009 6 3 ≤ today) :
    calculate_tourist_tax today (PyVal.vstr "2025-06-01") (PyVal.vstr "2025-06-05")
      (PyVal.vstr "2009-06-03") = Except.ok 4 ∧
    chargeableNights (civilToDays 2025 6 1) (civilToDays 2009 6 3) 4 = 2 := by
  refine ⟨?_, by decide⟩
  have hconv : calculate_tourist_tax today (PyVal.vstr "2025-06-01")
      (PyVal.vstr "2025-06-05") (PyVal.vstr "2009-06-03")
      = Except.ok (taxCore today (civilToDays 2025 6 1) (civilToDays 2025 6 5)
          (civilToDays 2009 6 3)) := rfl
  rw [hconv]
  suffices hs : taxCore today (civilToDays 2025 6 1) (civilToDays 2025 6 5)
      (civilToDays 2009 6 3) = 4 by rw [hs]
  unfold taxCore
  rw [if_neg (by decide : ¬(civilToDays 2025 6 5 ≤ civilToDays 2025 6 1))]
  rw [if_neg (not_lt.mpr h)]
  decide

theorem claim_C9_turning_sixteen_witness :
    civilToDays 2009 6 3 ≤ 20000 ∧
    (calculate_tourist_tax 20000 (PyVal.vstr "2025-06-01") (PyVal.vstr "2025-06-05")
        (PyVal.vstr "2009-06-03") = Except.ok 4 ∧
      chargeableNights (civilToDays 2025 6 1) (civilToDays 2009 6 3) 4 = 2) :=
  ⟨by decide, claim_C9_turning_sixteen 20000 (by decide)⟩

/-- C4 counterexample: `calculate_tourist_tax` of §4.2 applies no cutoff: a
stay checked in on 2024-06-01 — before 2025-01-01 — by an adult guest is
taxed 8 EUR, not 0. -/
theorem claim_C4_counterexample :
    civilToDays 2024 6 1 < InvoiceService.cutoffDay ∧
    calculate_tourist_tax (civilToDays 2026 10 12) (PyVal.vstr "2024-06-01")
      (PyVal.vstr "2024-06-05") (PyVal.vstr "2000-01-01") = Except.ok 8 ∧
    (8 : Int) ≠ 0 :=
  ⟨by decide, rfl, by decide⟩

/-- C4 amended: the 2025-01-01 cutoff is enforced by the invoice pipeline's
`_calculate_tourist_tax`, not by §4.2's `calculate_tourist_tax`: whenever
the reservation's parsed check-in is before the cutoff, the invoice
computation returns (0.0, 0) regardless of the forms. -/
theorem claim_C4_cutoff_amended (resParse sefParse : PyVal → Option Int)
    (r : InvoiceService.Resv) (forms : List InvoiceService.SefForm) (ci : Int)
    (h1 : resParse r.checkIn = some ci) (h2 : ci < InvoiceService.cutoffDay) :
    InvoiceService.calcTouristTaxInvoice resParse sefParse r forms = (0, 0) := by
  unfold InvoiceService.calcTouristTaxInvoice
  by_cases hn : r.nights ≤ 0
  · rw [if_pos hn]
  · rw [if_neg hn, h1]
    dsimp only
    rw [if_pos h2]

/-- Reservation of the C4 witness: a 2024 stay, before the cutoff. -/
def resC4w : InvoiceService.Resv :=
  InvoiceService.Resv.mk (PyVal.vstr "Guest") (PyVal.vstr "2024-06-01") (PyVal.vstr "2024-06-05") 4

theorem claim_C4_cutoff_amended_witness :
    InvoiceService.calcTouristTaxInvoice InvoiceService.parseIsoDate
      InvoiceService.parseIsoDate resC4w [] = (0, 0) :=
  claim_C4_cutoff_amended InvoiceService.parseIsoDate InvoiceService.parseIsoDate
    resC4w [] (civilToDays 2024 6 1) (by decide) (by decide)

/-- Reservation of the C3 counterexample: a 10-night stay in June 2025. -/
def resC3 : InvoiceService.Resv :=
  InvoiceService.Resv.mk (PyVal.vstr "Guest") (PyVal.vstr "2025-06-01") (PyVal.vstr "2025-06-11") 10

/-- The single registration form of the C3 counterexample: matching dates,
guest born 2015-03-05 (10 years old during the stay). -/
def sefChildC3 : InvoiceService.SefForm :=
  InvoiceService.SefForm.mk "Child Guest" (PyVal.vstr "2025-06-01") (PyVal.vstr "2025-06-11")
    (PyVal.vstr "2015-03-05")

/-- C3 counterexample: for a 10-night stay matched by a single form whose
guest is 10 years old, the invoice tourist tax is 20 EUR — the per-candidate
rule of the claim allows at most 2x7 = 14 EUR for one candidate (and 0 EUR
for one under-16 candidate): the code applies neither the 7-night cap nor
the date of birth. -/
theorem claim_C3_counterexample :
    InvoiceService.calcTouristTaxInvoice InvoiceService.parseIsoDate
      InvoiceService.parseIsoDate resC3 [sefChildC3] = (20, 1) ∧
    ¬((20 : Rat) ≤ 2 * 7 * 1) := by
  refine ⟨?_, by norm_num⟩
  have h1 : InvoiceService.calcTouristTaxInvoice InvoiceService.parseIsoDate
      InvoiceService.parseIsoDate resC3 [sefChildC3]
      = (round2 (((1 : Nat) : Rat) * (10 : Rat) * 2), (1 : Nat)) := rfl
  rw [h1, Prod.mk.injEq]
  norm_num [round2]

/-- C3 amended: each matched candidate contributes the reservation's full
night count at 2 EUR per night, with no 7-night cap and no use of any date
of birth: past the nights/check-in/cutoff guards the result is
(round2(count x nights x 2), count), where count is the number of
exact-date-matching forms, falling back to all forms when none match. -/
theorem claim_C3_invoice_tax_amended (resParse sefParse : PyVal → Option Int)
    (r : InvoiceService.Resv) (forms : List InvoiceService.SefForm) (ci : Int)
    (hn : ¬ r.nights ≤ 0) (h1 : resParse r.checkIn = some ci)
    (h2 : ¬ ci < InvoiceService.cutoffDay) (hne : forms ≠ []) :
    InvoiceService.calcTouristTaxInvoice resParse sefParse r forms
      = (round2 (((InvoiceService.effectiveForms resParse sefParse ci r forms).length : Rat)
            * r.nights * 2),
         (InvoiceService.effectiveForms resParse sefParse ci r forms).length) := by
  have hef : InvoiceService.effectiveForms resParse sefParse ci r forms ≠ [] := by
    unfold InvoiceService.effectiveForms
    dsimp only
    split_ifs with hm
    · exact hne
    · intro hc
      rw [hc] at hm
      exact hm rfl
  have hlen : (InvoiceService.effectiveForms resParse sefParse ci r forms).length ≠ 0 :=
    fun hc => hef (List.length_eq_zero.mp hc)
  unfold InvoiceService.calcTouristTaxInvoice
  rw [if_neg hn, h1]
  dsimp only
  rw [if_neg h2, if_neg hlen]

/-- Reservation of the C3 witness: a 4-night stay in June 2025. -/
def resC3w : InvoiceService.Resv :=
  InvoiceService.Resv.mk (PyVal.vstr "Guest") (PyVal.vstr "2025-06-01") (PyVal.vstr "2025-06-05") 4

/-- Registration form of the C3 witness. -/
def sefC3w : InvoiceService.SefForm :=
  InvoiceService.SefForm.mk "Ana Silva" (PyVal.vstr "2025-06-01") (PyVal.vstr "2025-06-05")
    (PyVal.vstr "1990-01-01")

theorem claim_C3_invoice_tax_amended_witness :
    InvoiceService.calcTouristTaxInvoice InvoiceService.parseIsoDate
      InvoiceService.parseIsoDate resC3w [sefC3w]
      = (round2 (((InvoiceService.effectiveForms InvoiceService.parseIsoDate
            InvoiceService.parseIsoDate (civilToDays 2025 6 1) resC3w [sefC3w]).length : Rat)
          * resC3w.nights * 2),
        (InvoiceService.effectiveForms InvoiceService.parseIsoDate
          InvoiceService.parseIsoDate (civilToDays 2025 6 1) resC3w [sefC3w]).length) :=
  claim_C3_invoice_tax_amended InvoiceService.parseIsoDate InvoiceService.parseIsoDate
    resC3w [sefC3w] (civilToDays 2025 6 1) (by norm_num [resC3w]) (by decide) (by decide)
    (by decide)

theorem round2_close (q : Rat) : |round2 q - q| ≤ 1 / 200 := by
  have h1 := Int.floor_le (q * 100 + 1 / 2)
  have h2 := Int.lt_floor_add_one (q * 100 + 1 / 2)
  rw [round2, abs_le]
  constructor <;> linarith

theorem financialsOf_totals (r : String → Option PyVal) (i : CoercedIn) :
    |(financialsOf r i).total_fees - ((financialsOf r i).airbnb_fee
        + (financialsOf r i).lodgify_fee + (financialsOf r i).stripe_fee
        + (financialsOf r i).dynamic_fee)| ≤ 1 / 100 ∧
    |(financialsOf r i).net_revenue - (i.tp - (financialsOf r i).total_fees
        - (financialsOf r i).vat_amount)| ≤ 1 / 100 := by
  unfold financialsOf
  dsimp only
  set a := (if pyStrip (toLowerStr (PyVal.pyStr (getField r "origin" (PyVal.vstr ""))))
      = "airbnb" then round2 (i.tp * i.abfPct) else 0) with ha
  set l := to_float (getField r "lodgify_fee" (PyVal.vfloat 0)) with hl
  set s := to_float (getField r "stripe_fee" (PyVal.vfloat 0)) with hs
  set d := to_float (getField r "dynamic_fee" (PyVal.vfloat 0)) with hd
  set v := round2 (i.tp * i.vatRate) with hv
  constructor
  · have h := round2_close (a + l + s + d)
    calc |round2 (a + l + s + d) - (a + l + s + d)| ≤ 1 / 200 := h
      _ ≤ 1 / 100 := by norm_num
  · have h1 := round2_close (i.tp - (a + l + s + d) - v)
    have h2 := round2_close (a + l + s + d)
    have he : round2 (i.tp - (a + l + s + d) - v) - (i.tp - round2 (a + l + s + d) - v)
        = (round2 (i.tp - (a + l + s + d) - v) - (i.tp - (a + l + s + d) - v))
          + (round2 (a + l + s + d) - (a + l + s + d)) := by ring
    rw [he]
    calc |round2 (i.tp - (a + l + s + d) - v) - (i.tp - (a + l + s + d) - v)
          + (round2 (a + l + s + d) - (a + l + s + d))|
        ≤ |round2 (i.tp - (a + l + s + d) - v) - (i.tp - (a + l + s + d) - v)|
          + |round2 (a + l + s + d) - (a + l + s + d)| := abs_add _ _
      _ ≤ 1 / 100 := by linarith

theorem coerceInputs_tp (r c : String → Option PyVal) (i : CoercedIn)
    (hc : coerceInputs r c = Except.ok i) :
    pyFloatStrict (getField r "total_price" (PyVal.vfloat 0)) = Except.ok i.tp := by
  unfold coerceInputs at hc
  cases h1 : pyFloatStrict (getField r "total_price" (PyVal.vfloat 0)) with
  | error e => rw [h1] at hc; simp at hc
  | ok tp =>
    rw [h1] at hc
    cases h2 : pyFloatStrict (getField r "nights" (PyVal.vfloat 0)) with
    | error e => rw [h2] at hc; simp at hc
    | ok v2 =>
      rw [h2] at hc
      cases h3 : pyFloatStrict (getField r "guests_count" (PyVal.vfloat 1)) with
      | error e => rw [h3] at hc; simp at hc
      | ok v3 =>
        rw [h3] at hc
        cases h4 : pyFloatStrict (getField c "VAT_RATE" (PyVal.vfloat 0)) with
        | error e => rw [h4] at hc; simp at hc
        | ok v4 =>
          rw [h4] at hc
          cases h5 : pyFloatStrict (getField c "AIRBNB_FEE_PERCENT" (PyVal.vfloat 0)) with
          | error e => rw [h5] at hc; simp at hc
          | ok v5 =>
            rw [h5] at hc
            cases h6 : pyFloatStrict (getField c "LODGIFY_FEE_PERCENT" (PyVal.vfloat 0)) with
            | error e => rw [h6] at hc; simp at hc
            | ok v6 =>
              rw [h6] at hc
              cases h7 : anticipationOf (getField r "reservation_date" (PyVal.vstr ""))
                  (getField r "check_in" (PyVal.vstr "")) with
              | error e => rw [h7] at hc; simp at hc
              | ok v7 =>
                rw [h7] at hc
                have hinj : CoercedIn.mk tp v2 v3 v4 v5 v6 v7 = i := Except.ok.inj hc
                rw [← hinj]

/-- C6: `calculate_financials` never propagates an exception: every call
either returns the breakdown computed by the try-block body (`calcCore`),
or — when that body raises — the fixed all-zero breakdown `zeroBreakdown`
with every monetary field 0 and `anticipation_days` absent. -/
theorem claim_C6_financials_never_raise (r c : String → Option PyVal) :
    (∃ f, calcCore r c = Except.ok f ∧ calculate_financials r c = f) ∨
    (calcCore r c = Except.error () ∧ calculate_financials r c = zeroBreakdown) := by
  cases h : calcCore r c with
  | ok f =>
    left
    exact ⟨f, rfl, by rw [calculate_financials, h]⟩
  | error e =>
    right
    cases e
    exact ⟨rfl, by rw [calculate_financials, h]⟩

/-- Reservation of the C5 counterexample: a priced booking whose `nights`
field is `None`, making `float(...)` raise and the fallback fire. -/
def resC5 : String → Option PyVal :=
  fun k => if k = "total_price" then some (PyVal.vint 100)
    else if k = "nights" then some PyVal.vnone else none

/-- Empty configuration of the C5 counterexample. -/
def cfgC5 : String → Option PyVal := fun _ => none

/-- C5 counterexample: on the exception path the returned breakdown is the
all-zero fallback, so `net_revenue = 0` while
`total_price - total_fees - vat_amount = 100`: the claimed identity fails by
100, far beyond the 0.01 tolerance. -/
theorem claim_C5_counterexample :
    calculate_financials resC5 cfgC5 = zeroBreakdown ∧
    ¬(|(calculate_financials resC5 cfgC5).net_revenue
        - ((100 : Rat) - (calculate_financials resC5 cfgC5).total_fees
          - (calculate_financials resC5 cfgC5).vat_amount)| ≤ 1 / 100) := by
  have h : calculate_financials resC5 cfgC5 = zeroBreakdown := rfl
  refine ⟨h, ?_⟩
  rw [h]
  norm_num [zeroBreakdown]

/-- C5 amended: whenever the try-block body completes (no exception-path
fallback), the returned breakdown satisfies both identities within 0.01:
`total_fees` is the rounded sum of the four fee fields, and `net_revenue` is
the rounded `total_price - fees - VAT` against the coerced input price. -/
theorem claim_C5_financials_identities_amended (r c : String → Option PyVal)
    (f : Financials) (h : calcCore r c = Except.ok f) :
    |f.total_fees - (f.airbnb_fee + f.lodgify_fee + f.stripe_fee + f.dynamic_fee)| ≤ 1 / 100 ∧
    ∃ tp, pyFloatStrict (getField r "total_price" (PyVal.vfloat 0)) = Except.ok tp ∧
      |f.net_revenue - (tp - f.total_fees - f.vat_amount)| ≤ 1 / 100 := by
  unfold calcCore at h
  cases hc : coerceInputs r c with
  | error e => rw [hc] at h; simp at h
  | ok i =>
    rw [hc] at h
    have hf : f = financialsOf r i := by
      have := Except.ok.inj h
      exact this.symm
    subst hf
    exact ⟨(financialsOf_totals r i).1, i.tp, coerceInputs_tp r c i hc,
      (financialsOf_totals r i).2⟩

/-- Reservation of the C5 witness. -/
def resC5w : String → Option PyVal :=
  fun k => if k = "total_price" then some (PyVal.vfloat 100)
    else if k = "nights" then some (PyVal.vfloat 4)
    else if k = "guests_count" then some (PyVal.vfloat 2)
    else if k = "origin" then some (PyVal.vstr "airbnb")
    else if k = "lodgify_fee" then some (PyVal.vfloat 1)
    else if k = "reservation_date" then some (PyVal.vstr "2025-05-01")
    else if k = "check_in" then some (PyVal.vstr "2025-06-01") else none

/-- Configuration of the C5 witness. -/
def cfgC5w : String → Option PyVal :=
  fun k => if k = "VAT_RATE" then some (PyVal.vfloat (6 / 100))
    else if k = "AIRBNB_FEE_PERCENT" then some (PyVal.vfloat (15 / 100)) else none

/-- Coerced inputs of the C5 witness, as `coerceInputs` computes them. -/
def inC5w : CoercedIn :=
  CoercedIn.mk 100 4 2 (6 / 100) (15 / 100) 0 (some 31)

theorem claim_C5_financials_identities_amended_witness :
    |(financialsOf resC5w inC5w).total_fees - ((financialsOf resC5w inC5w).airbnb_fee
        + (financialsOf resC5w inC5w).lodgify_fee + (financialsOf resC5w inC5w).stripe_fee
        + (financialsOf resC5w inC5w).dynamic_fee)| ≤ 1 / 100 ∧
    ∃ tp, pyFloatStrict (getField resC5w "total_price" (PyVal.vfloat 0)) = Except.ok tp ∧
      |(financialsOf resC5w inC5w).net_revenue
        - (tp - (financialsOf resC5w inC5w).total_fees
          - (financialsOf resC5w inC5w).vat_amount)| ≤ 1 / 100 :=
  claim_C5_financials_identities_amended resC5w cfgC5w (financialsOf resC5w inC5w)
    (by
      have hco : coerceInputs resC5w cfgC5w = Except.ok inC5w := rfl
      unfold calcCore
      rw [hco])

theorem bool_eq_of_iff {a b : Bool} (h : a = true ↔ b = true) : a = b := by
  cases a <;> cases b <;> simp_all

theorem foldlMax_init_le {α : Type} (f : α → Rat) :
    ∀ (l : List α) (c : Rat), c ≤ l.foldl (fun a s => max a (f s)) c := by
  intro l
  induction l with
  | nil => intro c; exact le_refl c
  | cons s rest ih =>
    intro c
    rw [List.foldl_cons]
    exact le_trans (le_max_left c (f s)) (ih (max c (f s)))

theorem foldlMax_le_iff {α : Type} (f : α → Rat) :
    ∀ (l : List α) (c x : Rat),
      l.foldl (fun a s => max a (f s)) c ≤ x ↔ c ≤ x ∧ ∀ s ∈ l, f s ≤ x := by
  intro l
  induction l with
  | nil => intro c x; simp
  | cons s rest ih =>
    intro c x
    rw [List.foldl_cons, ih, max_le_iff]
    constructor
    · rintro ⟨⟨hc, hfs⟩, hrest⟩
      refine ⟨hc, fun t ht => ?_⟩
      rcases List.mem_cons.mp ht with hh | hh
      · rw [hh]; exact hfs
      · exact hrest t hh
    · rintro ⟨hc, hall⟩
      exact ⟨⟨hc, hall s (List.mem_cons_self s rest)⟩,
        fun t ht => hall t (List.mem_cons_of_mem s ht)⟩

theorem foldlMax_attained {α : Type} (f : α → Rat) :
    ∀ (l : List α) (c : Rat),
      l.foldl (fun a s => max a (f s)) c = c ∨
      ∃ s ∈ l, l.foldl (fun a s => max a (f s)) c = f s := by
  intro l
  induction l with
  | nil => intro c; left; rfl
  | cons s rest ih =>
    intro c
    rw [List.foldl_cons]
    rcases ih (max c (f s)) with h | ⟨t, ht, h⟩
    · rcases max_choice c (f s) with hm | hm
      · left; rw [h, hm]
      · right; exact ⟨s, List.mem_cons_self s rest, by rw [h, hm]⟩
    · right; exact ⟨t, List.mem_cons_of_mem s ht, h⟩

theorem findCongr {α : Type} (p q : α → Bool) :
    ∀ (l : List α), (∀ a ∈ l, p a = q a) → l.find? p = l.find? q := by
  intro l
  induction l with
  | nil => intro _; rfl
  | cons s rest ih =>
    intro h
    have hs := h s (List.mem_cons_self s rest)
    cases hq : q s with
    | true =>
      rw [List.find?_cons_of_pos rest (by rw [hs, hq]),
        List.find?_cons_of_pos rest (by rw [hq])]
    | false =>
      rw [List.find?_cons_of_neg rest (by rw [hs, hq]; exact Bool.false_ne_true),
        List.find?_cons_of_neg rest (by rw [hq]; exact Bool.false_ne_true)]
      exact ih (fun a ha => h a (List.mem_cons_of_mem s ha))

namespace InvoiceService

theorem bestLoop_snd (f : SefForm → Rat) :
    ∀ (l : List SefForm) (bm : Option SefForm) (bs : Rat),
      (bestLoop f l bm bs).2 = l.foldl (fun a s => max a (f s)) bs := by
  intro l
  induction l with
  | nil => intro bm bs; rfl
  | cons s rest ih =>
    intro bm bs
    rw [List.foldl_cons]
    by_cases h : f s > bs
    · simp only [bestLoop, if_pos h]
      rw [ih, max_eq_right (le_of_lt h)]
    · simp only [bestLoop, if_neg h]
      rw [ih, max_eq_left (not_lt.mp h)]

theorem bestLoop_fst (f : SefForm → Rat) :
    ∀ (l : List SefForm) (bm : Option SefForm) (bs : Rat),
      (bestLoop f l bm bs).1 =
        if bs < (bestLoop f l bm bs).2 then
          l.find? (fun s => decide ((bestLoop f l bm bs).2 ≤ f s))
        else bm := by
  intro l
  induction l with
  | nil =>
    intro bm bs
    simp [bestLoop]
  | cons s rest ih =>
    intro bm bs
    by_cases h : f s > bs
    · simp only [bestLoop, if_pos h]
      have hinit : f s ≤ (bestLoop f rest (some s) (f s)).2 := by
        rw [bestLoop_snd]
        exact foldlMax_init_le f rest (f s)
      have hcond : bs < (bestLoop f rest (some s) (f s)).2 := lt_of_lt_of_le h hinit
      rw [ih, if_pos hcond]
      by_cases h2 : f s < (bestLoop f rest (some s) (f s)).2
      · rw [if_pos h2, List.find?_cons_of_neg rest (by simpa using not_le.mpr h2)]
      · rw [if_neg h2, List.find?_cons_of_pos rest (by simpa using not_lt.mp h2)]
    · simp only [bestLoop, if_neg h]
      rw [ih]
      by_cases h2 : bs < (bestLoop f rest bm bs).2
      · rw [if_pos h2, if_pos h2,
          List.find?_cons_of_neg rest
            (by simpa using not_le.mpr (lt_of_le_of_lt (not_lt.mp h) h2))]
      · rw [if_neg h2, if_neg h2]

theorem fuzzy_match_score_nonneg (ratio : String → String → Rat)
    (hr : ∀ a b, 0 ≤ ratio a b) (x y : String) : 0 ≤ fuzzy_match_score ratio x y := by
  unfold fuzzy_match_score
  dsimp only
  split_ifs
  · exact le_refl (0 : Rat)
  · exact le_refl (0 : Rat)
  · exact hr _ _

end InvoiceService

open InvoiceService

/-- C7: given parseable booking dates, `_match_primary_guest` follows the
specified ladder exactly (formalized as the spec-side `ladderSpec`: best
scorer among exact-date matches when its score exceeds 0.65, else the first
date-matching candidate, else the first candidate of the whole list), and it
returns none exactly when the candidate list is empty. -/
theorem claim_C7_matcher_follows_ladder (ratio : String → String → Rat)
    (resParse sefParse : PyVal → Option Int) (r : Resv) (forms : List SefForm)
    (ci co : Int) (h1 : resParse r.checkIn = some ci) (h2 : resParse r.checkOut = some co)
    (hr : ∀ a b, 0 ≤ ratio a b) :
    match_primary_guest ratio resParse sefParse r forms
      = ladderSpec ratio resParse sefParse r forms ∧
    (match_primary_guest ratio resParse sefParse r forms = none ↔ forms = []) := by
  have e1 : match_primary_guest ratio resParse sefParse r forms
      = (match dateMatches sefParse ci co forms with
         | [] => forms.head?
         | m :: ms =>
           let best := bestLoop (guestScore ratio r) (m :: ms) none 0
           if best.2 > 65 / 100 then best.1 else some m) := by
    unfold match_primary_guest
    rw [h1, h2]
  have e2 : ladderSpec ratio resParse sefParse r forms
      = (match dateMatches sefParse ci co forms with
         | [] => forms.head?
         | m :: ms =>
           match (m :: ms).find? (fun s => (m :: ms).all
               (fun t => decide (guestScore ratio r t ≤ guestScore ratio r s))) with
           | some s => if guestScore ratio r s > 65 / 100 then some s else some m
           | none => some m) := by
    unfold ladderSpec
    rw [h1, h2]
  have hnn : ∀ s, 0 ≤ guestScore ratio r s := fun s =>
    fuzzy_match_score_nonneg ratio hr _ _
  have hmain : match_primary_guest ratio resParse sefParse r forms
      = ladderSpec ratio resParse sefParse r forms := by
    rw [e1, e2]
    cases hmm : dateMatches sefParse ci co forms with
    | nil => rfl
    | cons m ms =>
      dsimp only
      set f := guestScore ratio r with hf
      set M := (m :: ms).foldl (fun a s => max a (f s)) 0 with hM
      have hsnd : (bestLoop f (m :: ms) none 0).2 = M := bestLoop_snd f (m :: ms) none 0
      have hub : ∀ s ∈ m :: ms, f s ≤ M :=
        ((foldlMax_le_iff f (m :: ms) 0 M).mp (le_of_eq hM.symm)).2
      have hpred : ∀ s ∈ m :: ms,
          ((m :: ms).all (fun t => decide (f t ≤ f s))) = decide (M ≤ f s) := by
        intro s hs
        apply bool_eq_of_iff
        simp only [List.all_eq_true, decide_eq_true_eq]
        constructor
        · intro hall
          rw [hM]
          exact (foldlMax_le_iff f (m :: ms) 0 (f s)).mpr ⟨hnn s, hall⟩
        · intro hMle t ht
          exact le_trans (hub t ht) hMle
      have hcong : (m :: ms).find? (fun s => (m :: ms).all (fun t => decide (f t ≤ f s)))
          = (m :: ms).find? (fun s => decide (M ≤ f s)) :=
        findCongr _ _ (m :: ms) hpred
      by_cases hMgt : M > 65 / 100
      · have hcondpos : (bestLoop f (m :: ms) none 0).2 > 65 / 100 := by
          rw [hsnd]; exact hMgt
        rw [if_pos hcondpos]
        have h0M : (0 : Rat) < M := lt_trans (by norm_num) hMgt
        have hfst := bestLoop_fst f (m :: ms) none 0
        rw [hsnd] at hfst
        rw [hfst, if_pos h0M, ← hcong]
        cases hF : (m :: ms).find? (fun s => (m :: ms).all (fun t => decide (f t ≤ f s))) with
        | none =>
          exfalso
          rcases foldlMax_attained f (m :: ms) 0 with hat | ⟨s0, hs0, hat⟩
          · rw [← hM] at hat
            rw [hat] at hMgt
            norm_num at hMgt
          · have hps0 : ((m :: ms).all (fun t => decide (f t ≤ f s0))) = true := by
              rw [hpred s0 hs0]
              simp only [decide_eq_true_eq]
              exact le_of_eq (hM.trans hat)
            exact (List.find?_eq_none.mp hF s0 hs0) hps0
        | some s =>
          have hpA := List.find?_some hF
          have hsmem := List.mem_of_find?_eq_some hF
          have hMle : M ≤ f s := by
            rw [hpred s hsmem] at hpA
            simpa using hpA
          dsimp only
          rw [if_pos (lt_of_lt_of_le hMgt hMle)]
      · have hcondneg : ¬((bestLoop f (m :: ms) none 0).2 > 65 / 100) := by
          rw [hsnd]; exact hMgt
        rw [if_neg hcondneg]
        cases hF : (m :: ms).find? (fun s => (m :: ms).all (fun t => decide (f t ≤ f s))) with
        | none => rfl
        | some s =>
          have hsmem := List.mem_of_find?_eq_some hF
          have hle : f s ≤ 65 / 100 := le_trans (hub s hsmem) (not_lt.mp hMgt)
          dsimp only
          rw [if_neg (not_lt.mpr hle)]
  refine ⟨hmain, ?_⟩
  rw [hmain, e2]
  cases hmm : dateMatches sefParse ci co forms with
  | nil => exact List.head?_eq_none_iff
  | cons m ms =>
    dsimp only
    constructor
    · intro hnone
      exfalso
      revert hnone
      cases hF : (m :: ms).find? (fun s => (m :: ms).all
          (fun t => decide (guestScore ratio r t ≤ guestScore ratio r s))) with
      | none => intro hnone; exact Option.noConfusion hnone
      | some s =>
        intro hnone
        dsimp only at hnone
        by_cases hg : guestScore ratio r s > 65 / 100
        · rw [if_pos hg] at hnone; exact Option.noConfusion hnone
        · rw [if_neg hg] at hnone; exact Option.noConfusion hnone
    · intro hforms
      exfalso
      have hm : m ∈ forms := by
        have hmem : m ∈ dateMatches sefParse ci co forms := by
          rw [hmm]; exact List.mem_cons_self m ms
        unfold dateMatches at hmem
        exact (List.mem_filter.mp hmem).1
      rw [hforms] at hm
      exact List.not_mem_nil m hm

/-- Reservation of the C7 witness. -/
def resC7w : Resv :=
  Resv.mk (PyVal.vstr "Ana Silva") (PyVal.vstr "2025-06-01") (PyVal.vstr "2025-06-05") 4

/-- Registration form of the C7 witness. -/
def sefC7w : SefForm :=
  SefForm.mk "Ana Silva" (PyVal.vstr "2025-06-01") (PyVal.vstr "2025-06-05")
    (PyVal.vstr "1990-01-01")

theorem claim_C7_matcher_follows_ladder_witness :
    match_primary_guest (fun _ _ => 1) parseIsoDate parseIsoDate resC7w [sefC7w]
      = ladderSpec (fun _ _ => 1) parseIsoDate parseIsoDate resC7w [sefC7w] ∧
    (match_primary_guest (fun _ _ => 1) parseIsoDate parseIsoDate resC7w [sefC7w] = none
      ↔ ([sefC7w] : List SefForm) = []) :=
  claim_C7_matcher_follows_ladder (fun _ _ => 1) parseIsoDate parseIsoDate resC7w [sefC7w]
    (civilToDays 2025 6 1) (civilToDays 2025 6 5) (by decide) (by decide)
    (fun a b => by norm_num)
